import Mathlib

/-! Verification of the screenshot image-differ and CBT device-matching code

Shallow embedding of `test/screenshot/lib/image-differ.js` (the `ImageDiffer`
class) and of the CBT API client in the same source bundle (the `CbtApi` class:
`getMatchingCbtUserAgent_` with its inner `compareVersions` and
`parseVersionNumber` helpers).

Modelling conventions:
* JavaScript numbers that arise in version parsing are integers or `NaN`; they
  are modelled by `JNum` (an integer or the `nan` sentinel).
* Strings are processed as `List Char`; the regex replacements of
  `parseVersionNumber` are transcribed replacement by replacement, keeping the
  alternation order and the optional-space handling of each pattern.
* `Number(string)` is modelled for the shapes reachable here: a (whitespace
  trimmed) empty string parses to `0`, a string of decimal digits parses to its
  value, anything else parses to `NaN`.
* Image-diff quantities (`rawMisMatchPercentage`, pixel counts) are modelled as
  rationals.
-/

namespace ImageDifferSpec

/-- A JavaScript number as it occurs in version parsing: an integer or `NaN`. -/
inductive JNum where
  | num : ℤ → JNum
  | nan : JNum
deriving DecidableEq, Repr

/-- JavaScript falsiness of a number: `0` and `NaN` are falsy. -/
def jFalsy : JNum → Bool
  | .num z => z == 0
  | .nan => true

/-- JavaScript `x || 0` on a number: `0` and `NaN` (and, at call sites that pass
a default, `undefined`) become `0`. -/
def jOrZero (x : JNum) : JNum := if jFalsy x then .num 0 else x

/-- JavaScript subtraction: `NaN` is absorbing. -/
def jSub : JNum → JNum → JNum
  | .num a, .num b => .num (a - b)
  | _, _ => .nan

/-- JavaScript `x !== 0` for a number `x`: true for every number except `0`
itself (in particular true for `NaN`). -/
def jNonzero (x : JNum) : Bool := !(x == JNum.num 0)

/-- Case-insensitive character equality (ASCII case folding, as in a
JavaScript `/i` regex over these ASCII patterns). -/
def ciEq (a b : Char) : Bool := a.toLower == b.toLower

/-- Does `s` start with `pat`, case-insensitively? -/
def ciStarts : List Char → List Char → Bool
  | [], _ => true
  | _ :: _, [] => false
  | p :: ps, c :: cs => ciEq p c && ciStarts ps cs

/-- Does `s` end with `pat`, case-insensitively? -/
def ciEnds (pat s : List Char) : Bool := ciStarts pat.reverse s.reverse

/-- Regex `/pat$/i → ''`: drop the suffix `pat` (case-insensitively) if present. -/
def dropSuffixCI (pat s : List Char) : List Char :=
  if ciEnds pat s then s.take (s.length - pat.length) else s

/-- Regex `/ Service Pack \d$/i → ''`: drop a trailing `" Service Pack "` followed by
one digit (15 characters in total) if present. -/
def dropServicePack (s : List Char) : List Char :=
  if 15 ≤ s.length
     && ciStarts " Service Pack ".data (s.drop (s.length - 15))
     && (match s.drop (s.length - 1) with
         | [d] => d.isDigit
         | _ => false)
  then s.take (s.length - 15)
  else s

/-- Consume one optional leading space (the trailing `" ?"` of the anchored
replacement patterns). -/
def dropOptSpace : List Char → List Char
  | ' ' :: rest => rest
  | s => s

/-- Regex `/^(?:Windows )?XP ?/i → '5.1'`: map a leading, optionally
`"Windows "`-prefixed, `"XP"` (plus one optional space) to `"5.1"`. -/
def replaceXP (s : List Char) : List Char :=
  if ciStarts "Windows XP".data s then "5.1".data ++ dropOptSpace (s.drop 10)
  else if ciStarts "XP".data s then "5.1".data ++ dropOptSpace (s.drop 2)
  else s

/-- Regex `/^(?:Windows )?Vista ?/i → '6.0'`: map a leading, optionally
`"Windows "`-prefixed, `"Vista"` (plus one optional space) to `"6.0"`. -/
def replaceVista (s : List Char) : List Char :=
  if ciStarts "Windows Vista".data s then "6.0".data ++ dropOptSpace (s.drop 13)
  else if ciStarts "Vista".data s then "6.0".data ++ dropOptSpace (s.drop 5)
  else s

/-- Regex `/^(?:Windows|Win) ?/i → ''`: drop a leading `"Windows"` or `"Win"`
(alternatives tried in that order) plus one optional space. -/
def dropWinStart (s : List Char) : List Char :=
  if ciStarts "Windows".data s then dropOptSpace (s.drop 7)
  else if ciStarts "Win".data s then dropOptSpace (s.drop 3)
  else s

/-- Regex `/^(?:Mac OS X|Mac OSX|MacOS|OSX|Mac) ?/i → ''`: drop a leading Mac OS
name (alternatives tried in the source's order) plus one optional space. -/
def dropMacStart (s : List Char) : List Char :=
  if ciStarts "Mac OS X".data s then dropOptSpace (s.drop 8)
  else if ciStarts "Mac OSX".data s then dropOptSpace (s.drop 7)
  else if ciStarts "MacOS".data s then dropOptSpace (s.drop 5)
  else if ciStarts "OSX".data s then dropOptSpace (s.drop 3)
  else if ciStarts "Mac".data s then dropOptSpace (s.drop 3)
  else s

/-- One step of the trailing-zero-group strip on the reversed string: strip one leading
run of `'0'`s followed by `'.'`, if the string has that shape. -/
def stripZeroGroupRev (r : List Char) : Option (List Char) :=
  if (r.takeWhile (· == '0')).isEmpty then none
  else
    match r.dropWhile (· == '0') with
    | '.' :: rest => some rest
    | _ => none

/-- Iterate `stripZeroGroupRev` to a fixed point (fuel-bounded; each step
removes at least two characters, so `fuel = length` suffices). -/
def stripZeroGroupsRev : Nat → List Char → List Char
  | 0, r => r
  | fuel + 1, r =>
    match stripZeroGroupRev r with
    | some r2 => stripZeroGroupsRev fuel r2
    | none => r

/-- Regex `/(?:\.0+)+$/g → ''`: strip trailing all-zero dot groups, repeatedly
(`"6.0.0"` becomes `"6"`). -/
def dropTrailingZeroGroups (s : List Char) : List Char :=
  (stripZeroGroupsRev s.length s.reverse).reverse

/-- JavaScript `String.prototype.split('.')`: the empty string yields one empty
segment. -/
def splitOnDot : List Char → List (List Char)
  | [] => [[]]
  | '.' :: rest => [] :: splitOnDot rest
  | c :: rest =>
    match splitOnDot rest with
    | g :: gs => (c :: g) :: gs
    | [] => [[c]]

/-- Numeric value of a list of decimal digits. -/
def digitsToNat (s : List Char) : ℕ :=
  s.foldl (fun acc c => 10 * acc + (c.toNat - 48)) 0

/-- JavaScript `Number(string)`, restricted to the string shapes reachable from
`parseVersionNumber`'s segments: whitespace is trimmed; the empty string parses
to `0`; a nonempty run of decimal digits parses to its value; anything else
parses to `NaN`. -/
def jsNumber (s : List Char) : JNum :=
  let t := ((s.dropWhile Char.isWhitespace).reverse.dropWhile Char.isWhitespace).reverse
  if t.isEmpty then .num 0
  else if t.all Char.isDigit then .num (digitsToNat t)
  else .nan

/-- The source's `parseVersionNumber(version)`: apply the source's replacement pipeline in
order, then split on `'.'` and convert each segment to a number. -/
def parseVersionNumber (version : String) : List JNum :=
  let s := version.data
  let s := dropSuffixCI " 64-bit".data s
  let s := dropSuffixCI " Beta".data s
  let s := dropSuffixCI " Preview".data s
  let s := dropSuffixCI " Home".data s
  let s := dropServicePack s
  let s := replaceXP s
  let s := replaceVista s
  let s := dropWinStart s
  let s := dropMacStart s
  let s := dropTrailingZeroGroups s
  (splitOnDot s).map jsNumber

/-- Modelled from the claim's words (C7): strip a leading `"Mac OS X"`,
`"MacOSX"`, `"MacOS"`, `"OSX"` or `"Mac"` prefix — the claim's list has
`"MacOSX"` (no space) where the source's second alternative is `"Mac OSX"`
(with a space). Alternatives are tried in the listed order, with the same
optional trailing space as the other prefix rules. -/
def dropMacStartClaimed (s : List Char) : List Char :=
  if ciStarts "Mac OS X".data s then dropOptSpace (s.drop 8)
  else if ciStarts "MacOSX".data s then dropOptSpace (s.drop 6)
  else if ciStarts "MacOS".data s then dropOptSpace (s.drop 5)
  else if ciStarts "OSX".data s then dropOptSpace (s.drop 3)
  else if ciStarts "Mac".data s then dropOptSpace (s.drop 3)
  else s

/-- Modelled from the claim's words (C7): the claimed normalization pipeline —
identical to the source's except for the Mac-prefix alternative list
(`dropMacStartClaimed` instead of `dropMacStart`). -/
def parseVersionNumberClaimed (version : String) : List JNum :=
  let s := version.data
  let s := dropSuffixCI " 64-bit".data s
  let s := dropSuffixCI " Beta".data s
  let s := dropSuffixCI " Preview".data s
  let s := dropSuffixCI " Home".data s
  let s := dropServicePack s
  let s := replaceXP s
  let s := replaceVista s
  let s := dropWinStart s
  let s := dropMacStartClaimed s
  let s := dropTrailingZeroGroups s
  (splitOnDot s).map jsNumber

/-- The amended claim's Mac-prefix list: `"Mac OS X"`/`"Mac OSX"`/`"MacOS"`/
`"OSX"`/`"Mac"`, i.e. the claim's second alternative corrected to carry the
space, agreeing with the source regex. -/
def dropMacStartAmended (s : List Char) : List Char :=
  if ciStarts "Mac OS X".data s then dropOptSpace (s.drop 8)
  else if ciStarts "Mac OSX".data s then dropOptSpace (s.drop 7)
  else if ciStarts "MacOS".data s then dropOptSpace (s.drop 5)
  else if ciStarts "OSX".data s then dropOptSpace (s.drop 3)
  else if ciStarts "Mac".data s then dropOptSpace (s.drop 3)
  else s

/-- The amended claim's normalization pipeline: suffix strips, XP/Vista maps,
Windows/Mac prefix strips (with `dropMacStartAmended`), trailing-zero-group
strip, split and numeric conversion. -/
def parseVersionNumberAmended (version : String) : List JNum :=
  let s := version.data
  let s := dropSuffixCI " 64-bit".data s
  let s := dropSuffixCI " Beta".data s
  let s := dropSuffixCI " Preview".data s
  let s := dropSuffixCI " Home".data s
  let s := dropServicePack s
  let s := replaceXP s
  let s := replaceVista s
  let s := dropWinStart s
  let s := dropMacStartAmended s
  let s := dropTrailingZeroGroups s
  (splitOnDot s).map jsNumber

/-- Replace the `NaN` sentinel by the ordinary number `0` (used to state how
`compareVersions` treats non-numeric segments). -/
def nanToZero : JNum → JNum
  | .nan => .num 0
  | x => x

/-- The first `forEach` of `compareVersions`
(`v1.forEach((num, idx) => v2[idx] = v2[idx] || 0)`): for every index of `v1`,
the entry of `v2` is coerced with `|| 0` (an absent entry reads as `undefined`,
which `|| 0` turns into `0`, and the assignment extends the array); entries of
`v2` beyond `v1`'s length are untouched. The result has length
`max n1 v2.length`. -/
def padV2 (n1 : ℕ) (v2 : List JNum) : List JNum :=
  (List.range (max n1 v2.length)).map fun i =>
    if i < n1 then jOrZero (v2.getD i .nan) else v2.getD i (.num 0)

/-- The second `forEach` of `compareVersions`
(`v2.forEach((num, idx) => v1[idx] = v1[idx] || 0)`), iterating over the
already-extended `v2` of length `m`: every entry of `v1` up to `m` is coerced
with `|| 0` (absent entries read as `undefined`, hence become `0`). -/
def padV1 (m : ℕ) (v1 : List JNum) : List JNum :=
  (List.range m).map fun i => jOrZero (v1.getD i .nan)

/-- Deltas `v1.map((num, idx) => num - v2[idx])`: elementwise JavaScript subtraction
over the indices of `v1` (an absent `v2` entry reads as `undefined`; subtraction
with `undefined` yields `NaN`, matching `jSub`'s default). -/
def deltasOf (v1 v2 : List JNum) : List JNum :=
  (List.range v1.length).map fun i => jSub (v1.getD i .nan) (v2.getD i .nan)

/-- The body of `compareVersions` after parsing, as the JavaScript value it
computes: `deltas.filter((num) => num !== 0)[0] || 0`. -/
def compareVersionsJCore (v1 v2 : List JNum) : JNum :=
  let v2p := padV2 v1.length v2
  let v1p := padV1 v2p.length v1
  let deltas := deltasOf v1p v2p
  jOrZero ((deltas.filter jNonzero).headD (.num 0))

/-- Read a JS number back as an integer (`NaN` cannot reach this point: the
final `|| 0` of `compareVersions` has already mapped it to `0`). -/
def jToInt : JNum → ℤ
  | .num z => z
  | .nan => 0

/-- The value of `compareVersionsJCore`, with the result read back as the integer it always
is (`x || 0` maps `NaN` and an absent first element to `0`). -/
def compareVersionsJ (v1 v2 : List JNum) : ℤ :=
  jToInt (compareVersionsJCore v1 v2)

/-- The source's `compareVersions(version1, version2)`. -/
def compareVersions (version1 version2 : String) : ℤ :=
  compareVersionsJ (parseVersionNumber version1) (parseVersionNumber version2)

/-! Section: Integer-level semantics of `compareVersions` on NaN-free inputs -/

/-- Zero-padding of a parsed version to length `m`, at the integer level. -/
def zPadded (m : ℕ) (zs : List ℤ) : List ℤ :=
  (List.range m).map fun i => zs.getD i 0

/-- The `compareVersions` array pipeline at the integer level: pad both parsed
arrays with zeros to the longer length, subtract elementwise, and return the
first non-zero delta (or zero). -/
def zCompare (zs1 zs2 : List ℤ) : ℤ :=
  ((List.zipWith (· - ·) (zPadded (max zs1.length zs2.length) zs1)
      (zPadded (max zs1.length zs2.length) zs2)).filter (fun z => z != 0)).headD 0

/-! Section: ImageDiffer: single-image comparison

`compareOneImage` reads both images, runs the resemble comparison, decodes the
diff image, writes it to disk, and builds the `DiffImageResult`. The pure data
flow modelled here: from the comparator's `rawMisMatchPercentage` and the diff
image's decoded `width`/`height`, `analyzeComparisonResult_` computes
`diffPixelCount = diffPixelFraction * width * height`, and `compareOneImage`
classifies `has_changed: diffPixelCount >= min_diff_pixel_count` (the threshold
read from `resemble.json`). File paths and I/O (reads, `mkdirp`, the write of
the diff image) have no effect on these fields and are not modelled. -/

/-- The fields of `mdc.proto.DiffImageResult` built by `compareOneImage`
(`diff_image_file` is a path construction, not modelled). -/
structure DiffImageResult where
  diff_pixel_count : ℚ
  diff_pixel_fraction : ℚ
  has_changed : Bool
deriving DecidableEq, Repr

/-- The source's `analyzeComparisonResult_`: the pair `(diffPixelFraction, diffPixelCount)`
where `diffPixelFraction` is the comparator's `rawMisMatchPercentage` and
`diffPixelCount = diffPixelFraction * width * height` (a float product, not
rounded). -/
def analyzeComparisonResult (rawMisMatchPercentage : ℚ) (width height : ℕ) : ℚ × ℚ :=
  (rawMisMatchPercentage, rawMisMatchPercentage * width * height)

/-- The source's `compareOneImage`, restricted to the `DiffImageResult` fields it returns. -/
def compareOneImage (rawMisMatchPercentage : ℚ) (width height : ℕ)
    (min_diff_pixel_count : ℚ) : DiffImageResult :=
  let analyzed := analyzeComparisonResult rawMisMatchPercentage width height
  { diff_pixel_fraction := analyzed.1
    diff_pixel_count := analyzed.2
    has_changed := decide (min_diff_pixel_count ≤ analyzed.2) }

/-! Section: ImageDiffer: orchestration over the screenshot collection

`compareAllScreenshots` launches `compareOneScreenshot_` for every screenshot
of `comparable_screenshot_list` with `Promise.all`; completions interleave in
an arbitrary order, so the model takes the completion order as an explicit
list (the theorems quantify over every permutation of the input list). The
outcome of the awaited `compareOneImage` call for a given screenshot is
abstracted as an oracle `diffOf` (it depends only on the screenshot's image
files and the fixed configuration). -/

/-- The `mdc.proto.Screenshot.CaptureState` values used by this code. -/
inductive CaptureState where
  | PENDING
  | DIFFED
deriving DecidableEq, Repr

/-- The fields of `mdc.proto.Screenshot` read or written by `ImageDiffer`
(`user_agent_alias` stands for `screenshot.user_agent.alias`). -/
structure Screenshot where
  user_agent_alias : String
  html_file_path : String
  image_pair_id : ℕ
  capture_state : CaptureState
  diff_image_result : Option DiffImageResult
deriving DecidableEq, Repr

/-- The fields of `reportData.screenshots` read or written by `ImageDiffer`.
The maps are modelled as functions from key to the list stored under that key
(a key never pushed to reads as the empty list). -/
structure ScreenshotsBundle where
  comparable_screenshot_list : List Screenshot
  changed_screenshot_list : List Screenshot
  unchanged_screenshot_list : List Screenshot
  changed_screenshot_browser_map : String → List Screenshot
  changed_screenshot_page_map : String → List Screenshot
  unchanged_screenshot_browser_map : String → List Screenshot
  unchanged_screenshot_page_map : String → List Screenshot

/-- The mutation `compareOneScreenshot_` performs on its screenshot: assign the
diff result and tag the capture state `DIFFED`. -/
def markDiffed (diffOf : Screenshot → DiffImageResult) (s : Screenshot) : Screenshot :=
  { s with diff_image_result := some (diffOf s), capture_state := .DIFFED }

/-- The source's `compareOneScreenshot_`: await the diff, mark the screenshot, and append it
to the changed or unchanged list according to `has_changed`. -/
def compareOneScreenshot (diffOf : Screenshot → DiffImageResult)
    (st : ScreenshotsBundle) (screenshot : Screenshot) : ScreenshotsBundle :=
  let diffImageResult := diffOf screenshot
  let s := markDiffed diffOf screenshot
  if diffImageResult.has_changed then
    { st with changed_screenshot_list := st.changed_screenshot_list ++ [s] }
  else
    { st with unchanged_screenshot_list := st.unchanged_screenshot_list ++ [s] }

/-- The source's `groupByBrowser_`: push every screenshot onto the entry keyed by its user
agent alias (creating an empty entry on first use). -/
def groupByBrowser (screenshotArray : List Screenshot) : String → List Screenshot :=
  screenshotArray.foldl
    (fun browserMap s => fun k =>
      if k = s.user_agent_alias then browserMap k ++ [s] else browserMap k)
    (fun _ => [])

/-- The source's `groupByPage_`: same as `groupByBrowser_`, keyed by `html_file_path`. -/
def groupByPage (screenshotArray : List Screenshot) : String → List Screenshot :=
  screenshotArray.foldl
    (fun pageMap s => fun k =>
      if k = s.html_file_path then pageMap k ++ [s] else pageMap k)
    (fun _ => [])

/-- The source's `compareAllScreenshots`: run every comparison (appends happen in
`completionOrder`), then rebuild the four grouping maps from the settled
changed/unchanged lists. -/
def compareAllScreenshots (diffOf : Screenshot → DiffImageResult)
    (completionOrder : List Screenshot) (reportData : ScreenshotsBundle) :
    ScreenshotsBundle :=
  let st := completionOrder.foldl (compareOneScreenshot diffOf) reportData
  { st with
    changed_screenshot_browser_map := groupByBrowser st.changed_screenshot_list
    changed_screenshot_page_map := groupByPage st.changed_screenshot_list
    unchanged_screenshot_browser_map := groupByBrowser st.unchanged_screenshot_list
    unchanged_screenshot_page_map := groupByPage st.unchanged_screenshot_list }

/-! Section: A stable sort

`Array.prototype.sort` is a stable comparison sort. It is modelled by a stable
insertion sort over the boolean relation `le a b`, meaning "the comparator
returns a non-positive number on `(a, b)`": each element is inserted after all
already-placed elements `y` with `le y x`, so ties keep their original relative
order. For a consistent comparator (total and transitive `le`) this produces
the same list as any stable sort. -/

/-- Insert `x` into `l`, after every leading element `y` with `le y x`. -/
def insertLeStable {α : Type} (le : α → α → Bool) (x : α) : List α → List α
  | [] => [x]
  | y :: ys => if le y x then y :: insertLeStable le x ys else x :: y :: ys

/-- Stable insertion sort by the boolean relation `le`, processing elements in
their original order. -/
def sortByLe {α : Type} (le : α → α → Bool) (l : List α) : List α :=
  l.foldl (fun acc x => insertLeStable le x acc) []

/-! Section: CbtApi: device/browser matching (`getMatchingCbtUserAgent_`)

The catalog entries are `mdc.proto.cbt.CbtDevice` records (with their
`browsers`), restricted to the fields this function reads; the opaque `caps`
passthrough fields are not modelled. The user agent requirement is
`mdc.proto.UserAgent`, restricted likewise. `sort_order` is a numeric catalog
field, modelled as an integer. -/

inductive FormFactorType where
  | DESKTOP
  | MOBILE
deriving DecidableEq, Repr

inductive OsVendorType where
  | ANDROID
  | IOS
  | MAC
  | WINDOWS
deriving DecidableEq, Repr

inductive BrowserVendorType where
  | CHROME
  | EDGE
  | FIREFOX
  | IE
  | SAFARI
deriving DecidableEq, Repr

inductive BrowserVersionType where
  | EXACT
  | PREVIOUS
  | LATEST
deriving DecidableEq, Repr

/-- The fields of `mdc.proto.UserAgent` read by `getMatchingCbtUserAgent_`. -/
structure UserAgent where
  form_factor_type : FormFactorType
  os_vendor_type : OsVendorType
  browser_vendor_type : BrowserVendorType
  browser_version_type : BrowserVersionType
  browser_version_value : String
deriving DecidableEq, Repr

/-- The fields of `mdc.proto.cbt.CbtBrowser` read by the matcher
(`type` is the browser vendor string). -/
structure CbtBrowser where
  api_name : String
  type : String
  version : String
deriving DecidableEq, Repr

/-- The fields of `mdc.proto.cbt.CbtDevice` read by the matcher
(`device` is the form factor string, `type` the OS vendor string). -/
structure CbtDevice where
  device : String
  type : String
  version : String
  sort_order : ℤ
  browsers : List CbtBrowser
deriving DecidableEq, Repr

/-- A candidate `(device, browser)` pair. -/
structure CbtUserAgent where
  device : CbtDevice
  browser : CbtBrowser
deriving DecidableEq, Repr

def formFactorMap : FormFactorType → List String
  | .DESKTOP => ["desktop"]
  | .MOBILE => ["mobile"]

def osVendorMap : OsVendorType → List String
  | .ANDROID => ["Android"]
  | .IOS => ["iPhone", "iPad"]
  | .MAC => ["Mac"]
  | .WINDOWS => ["Windows"]

def browserVendorMap : BrowserVendorType → List String
  | .CHROME => ["Chrome", "Chrome Mobile"]
  | .EDGE => ["Microsoft Edge"]
  | .FIREFOX => ["Firefox"]
  | .IE => ["Internet Explorer"]
  | .SAFARI => ["Safari", "Mobile Safari"]

/-- The set of every browser `api_name` occurring anywhere in the catalog
(a JS `Set`, modelled by the list of its elements — only membership is used). -/
def allBrowserApiNames (allCbtDevices : List CbtDevice) : List String :=
  (allCbtDevices.map fun d => d.browsers.map fun b => b.api_name).flatten

/-- The candidate list built by `getMatchingCbtUserAgent_`: devices matching
the required form factor and OS vendor; within them, browsers matching the
required browser vendor, skipping a browser whose 64-bit variant
(`api_name + "x64"`) also exists in the catalog. -/
def matchingCbtUserAgents (userAgent : UserAgent) (allCbtDevices : List CbtDevice) :
    List CbtUserAgent :=
  ((allCbtDevices.filter fun cbtDevice =>
      (formFactorMap userAgent.form_factor_type).contains cbtDevice.device &&
      (osVendorMap userAgent.os_vendor_type).contains cbtDevice.type).map
    fun cbtDevice =>
      (cbtDevice.browsers.filter fun cbtBrowser =>
          (browserVendorMap userAgent.browser_vendor_type).contains cbtBrowser.type &&
          !((allBrowserApiNames allCbtDevices).contains (cbtBrowser.api_name ++ "x64"))).map
        fun cbtBrowser => CbtUserAgent.mk cbtDevice cbtBrowser).flatten

/-- JavaScript `x || y` for the integer comparator results chained in the sort
callback (`0` is falsy). -/
def zOrElse (x y : ℤ) : ℤ := if x = 0 then y else x

/-- The sort callback: device version, then browser version, then device
`sort_order`, each chained with `||`. -/
def candidateCompare (a b : CbtUserAgent) : ℤ :=
  zOrElse (compareVersions a.device.version b.device.version)
    (zOrElse (compareVersions a.browser.version b.browser.version)
      (a.device.sort_order - b.device.sort_order))

/-- Sort relation: `a` sorts no later than `b`, i.e. the comparator is non-positive on `(a, b)`. -/
def candidateLe (a b : CbtUserAgent) : Bool := decide (candidateCompare a b ≤ 0)

/-- The candidate list after `.sort(...).reverse()`: ascending stable sort by
the comparator, then reversal, so the highest-ranked candidate comes first. -/
def rankedCbtUserAgents (userAgent : UserAgent) (allCbtDevices : List CbtDevice) :
    List CbtUserAgent :=
  (sortByLe candidateLe (matchingCbtUserAgents userAgent allCbtDevices)).reverse

/-- JavaScript `a === b` where `a` is a number and `b` an optionally absent
array entry: false when `b` is absent (`undefined`) and whenever either side is
`NaN`. -/
def jStrictEqOpt : JNum → Option JNum → Bool
  | .num a, some (.num b) => a == b
  | _, _ => false

/-- The EXACT-policy predicate: every parsed segment of the required version
strictly equals the candidate's parsed segment at the same index
(`requiredBrowserVersion.every((number, index) => number === curBrowserVersion[index])`). -/
def exactVersionMatches (required cur : String) : Bool :=
  (List.range (parseVersionNumber required).length).all fun index =>
    jStrictEqOpt ((parseVersionNumber required).getD index .nan)
      ((parseVersionNumber cur)[index]?)

/-- The source's `getMatchingCbtUserAgent_` after the catalog fetch: build the candidates,
rank them, and resolve the version policy; absence is `none`. -/
def getMatchingCbtUserAgent (userAgent : UserAgent) (allCbtDevices : List CbtDevice) :
    Option CbtUserAgent :=
  if userAgent.browser_version_type = .EXACT then
    (rankedCbtUserAgents userAgent allCbtDevices).find? fun cbtUserAgent =>
      exactVersionMatches userAgent.browser_version_value cbtUserAgent.browser.version
  else if userAgent.browser_version_type = .PREVIOUS then
    (rankedCbtUserAgents userAgent allCbtDevices)[1]?
  else
    (rankedCbtUserAgents userAgent allCbtDevices)[0]?

/-! Section: Concrete demonstration data used by the witnesses -/

def exactDemoDevice : CbtDevice :=
  { device := "desktop", type := "Windows", version := "10", sort_order := 0,
    browsers :=
      [ { api_name := "Chrome63", type := "Chrome", version := "63.0.1" },
        { api_name := "Chrome64", type := "Chrome", version := "64.0.3282" } ] }

def exactDemoUserAgent : UserAgent :=
  { form_factor_type := .DESKTOP, os_vendor_type := .WINDOWS,
    browser_vendor_type := .CHROME, browser_version_type := .EXACT,
    browser_version_value := "64" }

def dedupDemoDevice : CbtDevice :=
  { device := "desktop", type := "Windows", version := "10", sort_order := 1,
    browsers :=
      [ { api_name := "Chrome64", type := "Chrome", version := "64.0.3282" },
        { api_name := "Chrome64x64", type := "Chrome", version := "64.0.3282" } ] }

def dedupDemoUserAgent : UserAgent :=
  { form_factor_type := .DESKTOP, os_vendor_type := .WINDOWS,
    browser_vendor_type := .CHROME, browser_version_type := .LATEST,
    browser_version_value := "" }

/-- The 32-bit candidate pair of `dedupDemoDevice`. -/
def dedupDemoCandidate : CbtUserAgent :=
  { device := dedupDemoDevice,
    browser := { api_name := "Chrome64", type := "Chrome", version := "64.0.3282" } }

def rankDemoDeviceA : CbtDevice :=
  { device := "desktop", type := "Windows", version := "8", sort_order := 1,
    browsers := [ { api_name := "Chrome63", type := "Chrome", version := "63.0.1" } ] }

def rankDemoDeviceB : CbtDevice :=
  { device := "desktop", type := "Windows", version := "10", sort_order := 2,
    browsers := [ { api_name := "Chrome64", type := "Chrome", version := "64.0.3282" } ] }

def rankDemoCatalog : List CbtDevice := [rankDemoDeviceA, rankDemoDeviceB]

def rankDemoUserAgent : UserAgent :=
  { form_factor_type := .DESKTOP, os_vendor_type := .WINDOWS,
    browser_vendor_type := .CHROME, browser_version_type := .LATEST,
    browser_version_value := "" }

def diffDemoChanged : DiffImageResult :=
  { diff_pixel_count := 5, diff_pixel_fraction := 1/20, has_changed := true }

def diffDemoUnchanged : DiffImageResult :=
  { diff_pixel_count := 0, diff_pixel_fraction := 0, has_changed := false }

/-- A concrete diff oracle: the screenshot with image pair 0 changed, every
other one did not. -/
def diffDemoOf (s : Screenshot) : DiffImageResult :=
  if s.image_pair_id = 0 then diffDemoChanged else diffDemoUnchanged

def demoShotA : Screenshot :=
  { user_agent_alias := "desktop_windows_chrome", html_file_path := "button.html",
    image_pair_id := 0, capture_state := .PENDING, diff_image_result := none }

def demoShotB : Screenshot :=
  { user_agent_alias := "desktop_windows_firefox", html_file_path := "card.html",
    image_pair_id := 1, capture_state := .PENDING, diff_image_result := none }

def demoBundle : ScreenshotsBundle :=
  { comparable_screenshot_list := [demoShotA, demoShotB]
    changed_screenshot_list := []
    unchanged_screenshot_list := []
    changed_screenshot_browser_map := fun _ => []
    changed_screenshot_page_map := fun _ => []
    unchanged_screenshot_browser_map := fun _ => []
    unchanged_screenshot_page_map := fun _ => [] }

/-! Section: Sanity checks on concrete inputs -/

example : parseVersionNumber "6.0.0" = [.num 6] := by decide
example : parseVersionNumber "Windows XP Service Pack 2" = [.num 5, .num 1] := by decide
example : parseVersionNumber "Vista" = [.num 6] := by decide
example : parseVersionNumber "MacOSX 10.13" = [.nan, .num 13] := by decide
example : parseVersionNumber "Mac OSX 10.13" = [.num 10, .num 13] := by decide
example : compareVersions "6" "6.0.0" = 0 := by decide
example : compareVersions "6" "6.0.2" = -2 := by decide
example : compareVersions "1" "1.x.2" = 0 := by decide
example : compareVersions "1" "1.0.2" = -2 := by decide
example : compareVersions "1.x" "1.2" = -2 := by decide

theorem jOrZero_num (z : ℤ) : jOrZero (.num z) = .num z := by
  by_cases h : z = 0 <;> simp [jOrZero, jFalsy, h]

theorem jNonzero_num (z : ℤ) : jNonzero (.num z) = (z != 0) := by
  have hbeq : (JNum.num z == JNum.num 0) = (z == 0) := by
    by_cases h : z = 0 <;> simp [h]
  simp [jNonzero, bne, hbeq]

theorem getD_map_num (zs : List ℤ) (i : ℕ) (d : JNum) :
    (zs.map JNum.num).getD i d = ((zs[i]?).map JNum.num).getD d := by
  simp [List.getD_eq_getElem?_getD]

theorem padV2_map_num (zs1 zs2 : List ℤ) :
    padV2 zs1.length (zs2.map JNum.num) =
      (zPadded (max zs1.length zs2.length) zs2).map JNum.num := by
  unfold padV2 zPadded
  rw [List.map_map, List.length_map]
  refine List.map_congr_left fun i hi => ?_
  rw [List.mem_range] at hi
  by_cases h1 : i < zs1.length
  · simp only [h1, if_true, Function.comp]
    by_cases h2 : i < zs2.length
    · rw [getD_map_num]
      simp [List.getElem?_eq_getElem h2, List.getD_eq_getElem?_getD, jOrZero_num]
    · rw [getD_map_num]
      simp [List.getElem?_eq_none (le_of_not_lt h2), List.getD_eq_getElem?_getD,
        jOrZero, jFalsy]
  · have h2 : i < zs2.length := by omega
    simp only [h1, if_false, Function.comp]
    rw [getD_map_num]
    simp [List.getElem?_eq_getElem h2, List.getD_eq_getElem?_getD]

theorem padV1_map_num (m : ℕ) (zs : List ℤ) :
    padV1 m (zs.map JNum.num) = (zPadded m zs).map JNum.num := by
  unfold padV1 zPadded
  rw [List.map_map]
  refine List.map_congr_left fun i _ => ?_
  by_cases h : i < zs.length
  · rw [Function.comp, getD_map_num]
    simp [List.getElem?_eq_getElem h, List.getD_eq_getElem?_getD, jOrZero_num]
  · rw [Function.comp, getD_map_num]
    simp [List.getElem?_eq_none (le_of_not_lt h), List.getD_eq_getElem?_getD,
      jOrZero, jFalsy]

theorem deltasOf_nil_left (v2 : List JNum) : deltasOf [] v2 = [] := by
  simp [deltasOf]

theorem deltasOf_cons (x y : JNum) (xs ys : List JNum) :
    deltasOf (x :: xs) (y :: ys) = jSub x y :: deltasOf xs ys := by
  simp [deltasOf, List.range_succ_eq_map, List.map_map, Function.comp]

theorem deltasOf_map_num (zs1 zs2 : List ℤ) (h : zs1.length = zs2.length) :
    deltasOf (zs1.map JNum.num) (zs2.map JNum.num) =
      (List.zipWith (· - ·) zs1 zs2).map JNum.num := by
  induction zs1 generalizing zs2 with
  | nil => simp [deltasOf_nil_left]
  | cons x xs ih =>
    cases zs2 with
    | nil => simp at h
    | cons y ys =>
      simp only [List.map_cons, deltasOf_cons, List.zipWith_cons_cons]
      rw [ih ys (by simpa using h)]
      rfl

theorem filter_jNonzero_map_num (l : List ℤ) :
    (l.map JNum.num).filter jNonzero = (l.filter (fun z => z != 0)).map JNum.num := by
  induction l with
  | nil => rfl
  | cons x xs ih =>
    by_cases h : x = 0 <;>
      simp [List.filter_cons, jNonzero_num, h, ih]

theorem headD_map_num (l : List ℤ) :
    (l.map JNum.num).headD (.num 0) = .num (l.headD 0) := by
  cases l <;> rfl

/-- On NaN-free parsed arrays, `compareVersions`' body computes exactly the
integer-level `zCompare`. -/
theorem compareVersionsJ_map_num (zs1 zs2 : List ℤ) :
    compareVersionsJ (zs1.map JNum.num) (zs2.map JNum.num) = zCompare zs1 zs2 := by
  simp only [compareVersionsJ, compareVersionsJCore, zCompare, List.length_map]
  rw [padV2_map_num]
  rw [List.length_map, padV1_map_num]
  have hlen2 : (zPadded (max zs1.length zs2.length) zs2).length
      = max zs1.length zs2.length := by simp [zPadded]
  rw [hlen2]
  have hlen : (zPadded (max zs1.length zs2.length) zs1).length
      = (zPadded (max zs1.length zs2.length) zs2).length := by simp [zPadded]
  rw [deltasOf_map_num _ _ hlen, filter_jNonzero_map_num, headD_map_num, jOrZero_num]
  rfl

theorem zPadded_getD (m : ℕ) (zs : List ℤ) (i : ℕ) (hi : i < m) :
    (zPadded m zs).getD i 0 = zs.getD i 0 := by
  unfold zPadded
  rw [List.getD_eq_getElem?_getD, List.getElem?_map, List.getElem?_range hi]
  rfl

theorem zipWith_sub_self (l : List ℤ) :
    List.zipWith (· - ·) l l = l.map fun _ => 0 := by
  induction l with
  | nil => rfl
  | cons x xs ih => simp [ih]

theorem zCompare_self (zs : List ℤ) : zCompare zs zs = 0 := by
  unfold zCompare
  rw [zipWith_sub_self]
  have : ((zPadded (max zs.length zs.length) zs).map fun _ => (0 : ℤ)).filter
      (fun z => z != 0) = [] := by
    simp [List.filter_map, Function.comp]
  rw [this]
  rfl

theorem zipWith_sub_comm (l1 l2 : List ℤ) :
    List.zipWith (· - ·) l2 l1 = (List.zipWith (· - ·) l1 l2).map Neg.neg := by
  induction l1 generalizing l2 with
  | nil => cases l2 <;> rfl
  | cons x xs ih =>
    cases l2 with
    | nil => rfl
    | cons y ys => simp [ih, neg_sub]

theorem zCompare_antisymm (zs1 zs2 : List ℤ) :
    zCompare zs2 zs1 = -zCompare zs1 zs2 := by
  unfold zCompare
  rw [max_comm zs2.length zs1.length, zipWith_sub_comm]
  rw [List.filter_map]
  have hp : ((fun z : ℤ => z != 0) ∘ Neg.neg) = fun z : ℤ => z != 0 := by
    funext z
    simp [Function.comp, bne, neg_eq_zero]
  rw [hp]
  cases hfl : (List.zipWith (· - ·)
      (zPadded (max zs1.length zs2.length) zs1)
      (zPadded (max zs1.length zs2.length) zs2)).filter (fun z => z != 0) <;> simp

/-- A NaN-free list of JS numbers is the image of an integer list. -/
theorem exists_map_num (v : List JNum) (h : JNum.nan ∉ v) :
    ∃ zs : List ℤ, v = zs.map JNum.num := by
  induction v with
  | nil => exact ⟨[], rfl⟩
  | cons x xs ih =>
    obtain ⟨zs, hzs⟩ := ih (fun hx => h (List.mem_cons_of_mem _ hx))
    cases x with
    | num z => exact ⟨z :: zs, by simp [hzs]⟩
    | nan => exact absurd (List.mem_cons_self _ _) h

theorem foldl_compareOneScreenshot (diffOf : Screenshot → DiffImageResult) :
    ∀ (l : List Screenshot) (st : ScreenshotsBundle),
      (l.foldl (compareOneScreenshot diffOf) st).changed_screenshot_list
          = st.changed_screenshot_list
            ++ (l.filter fun s => (diffOf s).has_changed).map (markDiffed diffOf)
        ∧ (l.foldl (compareOneScreenshot diffOf) st).unchanged_screenshot_list
          = st.unchanged_screenshot_list
            ++ (l.filter fun s => !(diffOf s).has_changed).map (markDiffed diffOf) := by
  intro l
  induction l with
  | nil => intro st; simp
  | cons x xs ih =>
    intro st
    obtain ⟨ih1, ih2⟩ := ih (compareOneScreenshot diffOf st x)
    constructor
    · rw [List.foldl_cons, ih1, List.filter_cons]
      by_cases h : (diffOf x).has_changed <;>
        simp [compareOneScreenshot, h]
    · rw [List.foldl_cons, ih2, List.filter_cons]
      by_cases h : (diffOf x).has_changed <;>
        simp [compareOneScreenshot, h]

theorem mem_groupFold (key : Screenshot → String) :
    ∀ (l : List Screenshot) (m0 : String → List Screenshot) (k : String)
      (s : Screenshot),
      s ∈ (l.foldl
            (fun m x => fun k' => if k' = key x then m k' ++ [x] else m k')
            m0) k →
        s ∈ l ∨ s ∈ m0 k := by
  intro l
  induction l with
  | nil => intro m0 k s h; exact Or.inr h
  | cons x xs ih =>
    intro m0 k s h
    rcases ih _ k s h with hxs | hm
    · exact Or.inl (List.mem_cons_of_mem _ hxs)
    · by_cases hk : k = key x
      · subst hk
        simp only [if_pos rfl] at hm
        rcases List.mem_append.mp hm with hm' | hm'
        · exact Or.inr hm'
        · have hs : s = x := List.mem_singleton.mp hm'
          exact Or.inl (hs ▸ List.mem_cons_self x xs)
      · simp only [if_neg hk] at hm
        exact Or.inr hm

theorem mem_groupByBrowser (l : List Screenshot) (k : String) (s : Screenshot)
    (h : s ∈ groupByBrowser l k) : s ∈ l := by
  rcases mem_groupFold (fun x => x.user_agent_alias) l (fun _ => []) k s h with h' | h'
  · exact h'
  · simp at h'

theorem insertLeStable_perm {α : Type} (le : α → α → Bool) (x : α) :
    ∀ l : List α, (insertLeStable le x l).Perm (x :: l) := by
  intro l
  induction l with
  | nil => exact List.Perm.refl _
  | cons y ys ih =>
    by_cases h : le y x
    · simpa [insertLeStable, h] using
        ((ih.cons y).trans (List.Perm.swap x y ys))
    · simp [insertLeStable, h]

theorem sortByLe_foldl_perm {α : Type} (le : α → α → Bool) :
    ∀ (l acc : List α),
      (l.foldl (fun a x => insertLeStable le x a) acc).Perm (acc ++ l) := by
  intro l
  induction l with
  | nil => intro acc; simp
  | cons x xs ih =>
    intro acc
    have h1 : ((x :: xs).foldl (fun a y => insertLeStable le y a) acc)
        = xs.foldl (fun a y => insertLeStable le y a) (insertLeStable le x acc) := rfl
    rw [h1]
    exact (ih _).trans (((insertLeStable_perm le x acc).append_right xs).trans
      List.perm_middle.symm)

theorem sortByLe_perm {α : Type} (le : α → α → Bool) (l : List α) :
    (sortByLe le l).Perm l := by
  simpa using sortByLe_foldl_perm le l []

theorem pairwise_insertLeStable {α : Type} (le : α → α → Bool) (x : α) :
    ∀ l : List α,
      (∀ y ∈ l, le y x = true ∨ le x y = true) →
      (∀ y ∈ l, ∀ z ∈ l, le x y = true → le y z = true → le x z = true) →
      l.Pairwise (le · · = true) →
      (insertLeStable le x l).Pairwise (le · · = true) := by
  intro l
  induction l with
  | nil => intro _ _ _; simp [insertLeStable]
  | cons y ys ih =>
    intro htotal htrans hl
    rcases List.pairwise_cons.mp hl with ⟨hy, hys⟩
    by_cases h : le y x
    · rw [insertLeStable, if_pos h]
      refine List.pairwise_cons.mpr ⟨?_, ?_⟩
      · intro z hz
        rcases List.mem_cons.mp ((insertLeStable_perm le x ys).mem_iff.mp hz)
          with hz' | hz'
        · exact hz' ▸ h
        · exact hy z hz'
      · exact ih
          (fun y' hy' => htotal y' (List.mem_cons_of_mem _ hy'))
          (fun y' hy' z' hz' => htrans y' (List.mem_cons_of_mem _ hy')
            z' (List.mem_cons_of_mem _ hz'))
          hys
    · rw [insertLeStable, if_neg h]
      have hxy : le x y = true := by
        rcases htotal y (List.mem_cons_self _ _) with h' | h'
        · exact absurd h' h
        · exact h'
      refine List.pairwise_cons.mpr ⟨?_, hl⟩
      intro z hz
      rcases List.mem_cons.mp hz with hz' | hz'
      · exact hz' ▸ hxy
      · exact htrans y (List.mem_cons_self _ _) z (List.mem_cons_of_mem _ hz')
          hxy (hy z hz')

theorem sortByLe_pairwise {α : Type} (le : α → α → Bool) (l : List α)
    (htotal : ∀ a ∈ l, ∀ b ∈ l, le a b = true ∨ le b a = true)
    (htrans : ∀ a ∈ l, ∀ b ∈ l, ∀ c ∈ l,
      le a b = true → le b c = true → le a c = true) :
    (sortByLe le l).Pairwise (le · · = true) := by
  suffices haux : ∀ (rest acc : List α),
      (∀ a ∈ rest, a ∈ l) → (∀ a ∈ acc, a ∈ l) →
      acc.Pairwise (le · · = true) →
      (rest.foldl (fun a x => insertLeStable le x a) acc).Pairwise (le · · = true) by
    exact haux l [] (fun a ha => ha) (fun a ha => absurd ha (List.not_mem_nil a))
      List.Pairwise.nil
  intro rest
  induction rest with
  | nil => intro acc _ _ hp; exact hp
  | cons x xs ih =>
    intro acc hrest hacc hp
    refine ih (insertLeStable le x acc) (fun a ha => hrest a (List.mem_cons_of_mem _ ha))
      ?_ ?_
    · intro a ha
      rcases List.mem_cons.mp ((insertLeStable_perm le x acc).mem_iff.mp ha)
        with ha' | ha'
      · exact ha' ▸ hrest x (List.mem_cons_self _ _)
      · exact hacc a ha'
    · refine pairwise_insertLeStable le x acc ?_ ?_ hp
      · intro y hy
        rcases htotal y (hacc y hy) x (hrest x (List.mem_cons_self _ _)) with h | h
        · exact Or.inl h
        · exact Or.inr h
      · intro y hy z hz hxy hyz
        exact htrans x (hrest x (List.mem_cons_self _ _)) y (hacc y hy) z (hacc z hz)
          hxy hyz

theorem mem_allBrowserApiNames (allCbtDevices : List CbtDevice) (d : CbtDevice)
    (b : CbtBrowser) (hd : d ∈ allCbtDevices) (hb : b ∈ d.browsers) :
    b.api_name ∈ allBrowserApiNames allCbtDevices := by
  unfold allBrowserApiNames
  rw [List.mem_flatten]
  exact ⟨d.browsers.map (fun b => b.api_name), List.mem_map_of_mem _ hd,
    List.mem_map_of_mem _ hb⟩

/-! Section: Further structural lemmas -/

theorem jOrZero_nanToZero (x : JNum) : jOrZero (nanToZero x) = jOrZero x := by
  cases x <;> rfl

theorem padV2_nanToZero (v1 v2 : List JNum) (h : v2.length ≤ v1.length) :
    padV2 v1.length (v2.map nanToZero) = padV2 v1.length v2 := by
  unfold padV2
  rw [List.length_map]
  refine List.map_congr_left fun i hi => ?_
  rw [List.mem_range] at hi
  have h1 : i < v1.length := by omega
  simp only [h1, if_true]
  by_cases hl : i < v2.length
  · rw [List.getD_eq_getElem?_getD, List.getElem?_map, List.getD_eq_getElem?_getD,
      List.getElem?_eq_getElem hl]
    exact jOrZero_nanToZero _
  · rw [List.getD_eq_getElem?_getD, List.getElem?_map, List.getD_eq_getElem?_getD,
      List.getElem?_eq_none (le_of_not_lt hl)]
    rfl

theorem padV1_nanToZero (m : ℕ) (v1 : List JNum) :
    padV1 m (v1.map nanToZero) = padV1 m v1 := by
  unfold padV1
  refine List.map_congr_left fun i _ => ?_
  by_cases hl : i < v1.length
  · rw [List.getD_eq_getElem?_getD, List.getElem?_map, List.getD_eq_getElem?_getD,
      List.getElem?_eq_getElem hl]
    exact jOrZero_nanToZero _
  · rw [List.getD_eq_getElem?_getD, List.getElem?_map, List.getD_eq_getElem?_getD,
      List.getElem?_eq_none (le_of_not_lt hl)]
    rfl

/-- When the second parsed array is no longer than the first, every `NaN`
segment lies inside the range both `forEach` loops coerce with `|| 0`, so the
comparison result is exactly the result on the arrays with `NaN` replaced by
the ordinary number `0`. -/
theorem compareVersionsJ_nanToZero (v1 v2 : List JNum) (h : v2.length ≤ v1.length) :
    compareVersionsJ (v1.map nanToZero) (v2.map nanToZero) = compareVersionsJ v1 v2 := by
  simp only [compareVersionsJ, compareVersionsJCore, List.length_map]
  rw [padV2_nanToZero v1 v2 h, padV1_nanToZero]

/-- JavaScript `x || 0` always produces an ordinary number. -/
theorem jOrZero_isNum (x : JNum) : ∃ z : ℤ, jOrZero x = .num z := by
  cases x with
  | num z =>
    by_cases h : z = 0
    · exact ⟨0, by simp [jOrZero, jFalsy, h]⟩
    · exact ⟨z, by simp [jOrZero, jFalsy, h]⟩
  | nan => exact ⟨0, rfl⟩

theorem compareVersionsJCore_isNum (v1 v2 : List JNum) :
    ∃ z : ℤ, compareVersionsJCore v1 v2 = .num z := by
  simp only [compareVersionsJCore]
  exact jOrZero_isNum _

/-! Section: Claim theorems -/

/-- C1: For every diff result produced by `compareOneImage`, `has_changed`
is true if and only if `diff_pixel_count >= min_diff_pixel_count`; and the
classification depends on the fraction only through the computed pixel count
(two runs with equal `diff_pixel_count` classify identically, whatever their
fractions). -/
theorem hasChanged_iff_count_ge_threshold
    (rawMisMatchPercentage : ℚ) (width height : ℕ) (minDiffPixelCount : ℚ)
    (rawB : ℚ) (widthB heightB : ℕ) :
    ((compareOneImage rawMisMatchPercentage width height minDiffPixelCount).has_changed = true
      ↔ minDiffPixelCount ≤
          (compareOneImage rawMisMatchPercentage width height minDiffPixelCount).diff_pixel_count)
    ∧ ((compareOneImage rawMisMatchPercentage width height minDiffPixelCount).diff_pixel_count
          = (compareOneImage rawB widthB heightB minDiffPixelCount).diff_pixel_count →
        (compareOneImage rawMisMatchPercentage width height minDiffPixelCount).has_changed
          = (compareOneImage rawB widthB heightB minDiffPixelCount).has_changed) := by
  constructor
  · simp [compareOneImage, analyzeComparisonResult]
  · intro h
    simp only [compareOneImage, analyzeComparisonResult] at h ⊢
    exact congrArg (fun t => decide (minDiffPixelCount ≤ t)) h

theorem hasChanged_iff_count_ge_threshold_witness :
    ((compareOneImage (1/20) 10 10 3).has_changed = true
      ↔ (3 : ℚ) ≤ (compareOneImage (1/20) 10 10 3).diff_pixel_count)
    ∧ (compareOneImage (1/20) 10 10 3).has_changed
        = (compareOneImage (1/10) 10 5 3).has_changed :=
  ⟨(hasChanged_iff_count_ge_threshold (1/20) 10 10 3 (1/10) 10 5).1,
   (hasChanged_iff_count_ge_threshold (1/20) 10 10 3 (1/10) 10 5).2
     (by norm_num [compareOneImage, analyzeComparisonResult])⟩

/-- C9 counterexample: At `rawMisMatchPercentage = 1/2` on a 3×3 diff
image, `diff_pixel_count = 9/2`, which is not a non-negative *integer*: the
product `diff_pixel_fraction × width × height` is not rounded. -/
theorem diffPixelCount_not_integer :
    (compareOneImage (1/2) 3 3 0).diff_pixel_count = 9/2
    ∧ ∀ n : ℕ, (compareOneImage (1/2) 3 3 0).diff_pixel_count ≠ (n : ℚ) := by
  have hval : (compareOneImage (1/2) 3 3 0).diff_pixel_count = 9/2 := by
    norm_num [compareOneImage, analyzeComparisonResult]
  refine ⟨hval, fun n h => ?_⟩
  rw [hval] at h
  have h9 : (9 : ℚ) = 2 * (n : ℚ) := by linarith
  have h9n : (9 : ℕ) = 2 * n := by exact_mod_cast h9
  omega

/-- C9 amended: `diff_pixel_count` is the non-negative rational
`diff_pixel_fraction × width × height`; it is not rounded to an integer. -/
theorem diffPixelCount_nonneg (rawMisMatchPercentage : ℚ) (width height : ℕ)
    (minDiffPixelCount : ℚ) (hraw : 0 ≤ rawMisMatchPercentage) :
    0 ≤ (compareOneImage rawMisMatchPercentage width height minDiffPixelCount).diff_pixel_count
    ∧ (compareOneImage rawMisMatchPercentage width height minDiffPixelCount).diff_pixel_count
        = rawMisMatchPercentage * width * height := by
  refine ⟨?_, rfl⟩
  have hw : (0 : ℚ) ≤ width := by positivity
  have hh : (0 : ℚ) ≤ height := by positivity
  exact mul_nonneg (mul_nonneg hraw hw) hh

theorem diffPixelCount_nonneg_witness :
    0 ≤ (compareOneImage (1/2) 3 3 0).diff_pixel_count
    ∧ (compareOneImage (1/2) 3 3 0).diff_pixel_count = (1/2 : ℚ) * 3 * 3 := by
  have h := diffPixelCount_nonneg (1/2) 3 3 0 (by norm_num)
  refine ⟨h.1, ?_⟩
  rw [h.2]
  norm_num

/-- C5: For normalizable (NaN-free) version strings, `compareVersions` is
reflexively zero and antisymmetric; missing trailing segments are padded with
zeros, so `compareVersions "6" "6.0.0" = 0` while
`compareVersions "6" "6.0.2"` is negative. -/
theorem compareVersions_refl_antisymm_padding (a b : String)
    (ha : JNum.nan ∉ parseVersionNumber a) (hb : JNum.nan ∉ parseVersionNumber b) :
    compareVersions a a = 0
    ∧ compareVersions a b = -compareVersions b a
    ∧ compareVersions "6" "6.0.0" = 0
    ∧ compareVersions "6" "6.0.2" < 0 := by
  obtain ⟨za, hza⟩ := exists_map_num _ ha
  obtain ⟨zb, hzb⟩ := exists_map_num _ hb
  refine ⟨?_, ?_, by decide, by decide⟩
  · unfold compareVersions
    rw [hza, compareVersionsJ_map_num, zCompare_self]
  · unfold compareVersions
    rw [hza, hzb, compareVersionsJ_map_num, compareVersionsJ_map_num,
      zCompare_antisymm zb za]

theorem compareVersions_refl_antisymm_padding_witness :
    JNum.nan ∉ parseVersionNumber "6"
    ∧ JNum.nan ∉ parseVersionNumber "6.0.2"
    ∧ compareVersions "6" "6" = 0
    ∧ compareVersions "6" "6.0.2" = -compareVersions "6.0.2" "6"
    ∧ compareVersions "6" "6.0.0" = 0
    ∧ compareVersions "6" "6.0.2" < 0 := by
  have h := compareVersions_refl_antisymm_padding "6" "6.0.2" (by decide) (by decide)
  exact ⟨by decide, by decide, h.1, h.2.1, h.2.2.1, h.2.2.2⟩

/-- C7 counterexample: On `"MacOSX 10.13"` the source's pipeline leaves
`"X 10.13"` (its regex alternative is `"Mac OSX"` with a space, and the
`"MacOS"` alternative fires first), parsing to `[NaN, 13]`, whereas the
claimed pipeline (with a `"MacOSX"` alternative) parses `[10, 13]`. -/
theorem parseVersionNumber_macosx_counterexample :
    parseVersionNumber "MacOSX 10.13" = [.nan, .num 13]
    ∧ parseVersionNumberClaimed "MacOSX 10.13" = [.num 10, .num 13]
    ∧ parseVersionNumber "MacOSX 10.13" ≠ parseVersionNumberClaimed "MacOSX 10.13" := by
  refine ⟨by decide, by decide, by decide⟩

/-- C7 amended: `parseVersionNumber` implements the claimed pipeline with
the Mac-prefix alternative list corrected to `"Mac OS X"`/`"Mac OSX"`/
`"MacOS"`/`"OSX"`/`"Mac"`; illustrated on the pipeline's distinctive inputs
(suffix strip + XP map, Vista map, trailing-zero-group strip, Mac prefix). -/
theorem parseVersionNumber_pipeline_amended (version : String) :
    parseVersionNumber version = parseVersionNumberAmended version
    ∧ parseVersionNumber "Windows XP Service Pack 2" = [.num 5, .num 1]
    ∧ parseVersionNumber "Vista" = [.num 6]
    ∧ parseVersionNumber "6.0.0" = [.num 6]
    ∧ parseVersionNumber "Mac OSX 10.13" = [.num 10, .num 13] :=
  ⟨rfl, by decide, by decide, by decide, by decide⟩

/-- C8 counterexample: `"1.x"` parses with a `NaN` second segment, yet
`compareVersions "1.x" "1.2"` equals `compareVersions "1.0" "1.2"` (= -2): the
`NaN` is coerced to the ordinary number `0` by the padding loops and does not
surface in the result as a mismatch. -/
theorem nanSegment_no_mismatch_counterexample :
    parseVersionNumber "1.x" = [.num 1, .nan]
    ∧ compareVersions "1.x" "1.2" = -2
    ∧ compareVersions "1.x" "1.2" = compareVersions "1.0" "1.2" :=
  ⟨by decide, by decide, by decide⟩

/-- C8 amended: A non-numeric segment parses to `NaN`, but the `NaN` does
not propagate into `compareVersions`' result as a mismatch: whenever the second
parsed array is no longer than the first, every `NaN` segment is coerced to `0`
by the `|| 0` padding loops, and the comparison result equals the result on the
arrays with `NaN` replaced by the ordinary number `0`. -/
theorem nanSegment_coerced_to_zero (a b : String)
    (h : (parseVersionNumber b).length ≤ (parseVersionNumber a).length) :
    compareVersions a b
      = compareVersionsJ ((parseVersionNumber a).map nanToZero)
          ((parseVersionNumber b).map nanToZero)
    ∧ parseVersionNumber "1.x" = [.num 1, .nan] := by
  refine ⟨?_, by decide⟩
  unfold compareVersions
  rw [compareVersionsJ_nanToZero _ _ h]

theorem nanSegment_coerced_to_zero_witness :
    (parseVersionNumber "1.2").length ≤ (parseVersionNumber "1.x").length
    ∧ compareVersions "1.x" "1.2"
        = compareVersionsJ ((parseVersionNumber "1.x").map nanToZero)
            ((parseVersionNumber "1.2").map nanToZero) :=
  ⟨by decide, (nanSegment_coerced_to_zero "1.x" "1.2" (by decide)).1⟩

/-- C10 counterexample: `compareVersions "1" "1.x.2" = 0`, but replacing
the non-numeric segment by `0` gives `[1,0,2]` (the parse of `"1.0.2"`) and a
result of `-2`: a `NaN` segment of the longer second array beyond the first's
length survives the padding loops, its `NaN` delta is the first filtered delta,
and the trailing `|| 0` collapses the result to `0`, masking the later real
difference — so a non-numeric segment does *not* always compare as `0`. -/
theorem compareVersions_nan_masking_counterexample :
    compareVersions "1" "1.x.2" = 0
    ∧ (parseVersionNumber "1.x.2").map nanToZero = parseVersionNumber "1.0.2"
    ∧ compareVersionsJ ((parseVersionNumber "1").map nanToZero)
        ((parseVersionNumber "1.x.2").map nanToZero) = -2 :=
  ⟨by decide, by decide, by decide⟩

/-- C10 amended: `compareVersions` is total and never `NaN`: the value of
`deltas.filter(num !== 0)[0] || 0` is always an ordinary number (the `|| 0`
maps both an absent first delta and a `NaN` first delta to `0`), and the
string-level function returns that integer. `NaN` segments within the padded
range are coerced to `0` (see `nanSegment_coerced_to_zero`), but a `NaN`
segment of the second array beyond the first's length can mask later
differences, so non-numeric segments do not always compare as `0`. -/
theorem compareVersions_total_never_nan (a b : String) :
    ∃ z : ℤ, compareVersionsJCore (parseVersionNumber a) (parseVersionNumber b) = .num z
      ∧ compareVersions a b = z := by
  obtain ⟨z, hz⟩ := compareVersionsJCore_isNum (parseVersionNumber a) (parseVersionNumber b)
  exact ⟨z, hz, by unfold compareVersions compareVersionsJ; rw [hz]; rfl⟩

/-- C3: under the EXACT policy, resolution returns the first ranked candidate
(in `Array.prototype.find` order) whose parsed browser-version segments agree
with the parsed target segments at every index of the target -- a prefix match
on parsed segments: target `"64"` matches `"64.0.3282"` but not `"63.0.1"`. -/
theorem exactPolicy_prefix_match (userAgent : UserAgent) (allCbtDevices : List CbtDevice)
    (hexact : userAgent.browser_version_type = .EXACT) :
    getMatchingCbtUserAgent userAgent allCbtDevices
      = (rankedCbtUserAgents userAgent allCbtDevices).find? (fun cbtUserAgent =>
          exactVersionMatches userAgent.browser_version_value cbtUserAgent.browser.version)
    ∧ exactVersionMatches "64" "64.0.3282" = true
    ∧ exactVersionMatches "64" "63.0.1" = false := by
  refine ⟨?_, by decide, by decide⟩
  unfold getMatchingCbtUserAgent
  rw [if_pos hexact]

theorem exactPolicy_prefix_match_witness :
    getMatchingCbtUserAgent exactDemoUserAgent [exactDemoDevice]
      = (rankedCbtUserAgents exactDemoUserAgent [exactDemoDevice]).find? (fun cbtUserAgent =>
          exactVersionMatches "64" cbtUserAgent.browser.version)
    ∧ exactVersionMatches "64" "64.0.3282" = true
    ∧ exactVersionMatches "64" "63.0.1" = false :=
  exactPolicy_prefix_match exactDemoUserAgent [exactDemoDevice] rfl

/-- C4: if a browser entry whose `api_name` equals a candidate browser's
`api_name + "x64"` exists anywhere in the catalog, the non-64-bit candidate
never appears in the matching candidate list. -/

theorem no32bit_candidate_when_64bit_exists (userAgent : UserAgent)
    (allCbtDevices : List CbtDevice) (c : CbtUserAgent)
    (hex : ∃ d ∈ allCbtDevices, ∃ b ∈ d.browsers,
      b.api_name = c.browser.api_name ++ "x64") :
    c ∉ matchingCbtUserAgents userAgent allCbtDevices := by
  intro hc
  obtain ⟨d', hd', b', hb', hname⟩ := hex
  unfold matchingCbtUserAgents at hc
  rw [List.mem_flatten] at hc
  obtain ⟨l, hl, hcl⟩ := hc
  rw [List.mem_map] at hl
  obtain ⟨d, hd, rfl⟩ := hl
  rw [List.mem_map] at hcl
  obtain ⟨b, hb, hcb⟩ := hcl
  rw [List.mem_filter] at hb
  have hnot64 : ((allBrowserApiNames allCbtDevices).contains (b.api_name ++ "x64")) = false := by
    have h2 : ((browserVendorMap userAgent.browser_vendor_type).contains b.type) = true
        ∧ ((allBrowserApiNames allCbtDevices).contains (b.api_name ++ "x64")) = false := by
      simpa using hb.2
    exact h2.2
  have hbrow : c.browser = b := by rw [← hcb]
  have hmem : (b.api_name ++ "x64") ∈ allBrowserApiNames allCbtDevices := by
    have hm := mem_allBrowserApiNames allCbtDevices d' b' hd' hb'
    rw [hname, hbrow] at hm
    exact hm
  have htrue : ((allBrowserApiNames allCbtDevices).contains (b.api_name ++ "x64")) = true :=
    List.elem_iff.mpr hmem
  rw [hnot64] at htrue
  exact Bool.false_ne_true htrue

theorem no32bit_candidate_when_64bit_exists_witness :
    (∃ d ∈ [dedupDemoDevice], ∃ b ∈ d.browsers,
      b.api_name = dedupDemoCandidate.browser.api_name ++ "x64")
    ∧ dedupDemoCandidate ∉ matchingCbtUserAgents dedupDemoUserAgent [dedupDemoDevice] :=
  ⟨by decide,
   no32bit_candidate_when_64bit_exists dedupDemoUserAgent [dedupDemoDevice]
     dedupDemoCandidate (by decide)⟩

/-- C2: the candidate list is ranked by the composite comparator (device
version, then browser version, then device `sort_order`, each descending:
ascending stable sort then reversal); LATEST resolves to the first ranked
candidate and PREVIOUS to the second, and when no such candidate exists the
resolution returns `none` (an absent result) rather than raising. The
sortedness conjunct assumes the comparator is consistent (total and
transitive) on the candidate list, which holds for numeric catalog versions. -/
theorem ranking_and_policy_selection (userAgent : UserAgent)
    (allCbtDevices : List CbtDevice)
    (htotal : ∀ a ∈ matchingCbtUserAgents userAgent allCbtDevices,
      ∀ b ∈ matchingCbtUserAgents userAgent allCbtDevices,
        candidateLe a b = true ∨ candidateLe b a = true)
    (htrans : ∀ a ∈ matchingCbtUserAgents userAgent allCbtDevices,
      ∀ b ∈ matchingCbtUserAgents userAgent allCbtDevices,
        ∀ c ∈ matchingCbtUserAgents userAgent allCbtDevices,
          candidateLe a b = true → candidateLe b c = true → candidateLe a c = true) :
    (rankedCbtUserAgents userAgent allCbtDevices).Perm
        (matchingCbtUserAgents userAgent allCbtDevices)
    ∧ (rankedCbtUserAgents userAgent allCbtDevices).Pairwise
        (fun a b => candidateLe b a = true)
    ∧ getMatchingCbtUserAgent { userAgent with browser_version_type := .LATEST }
        allCbtDevices = (rankedCbtUserAgents userAgent allCbtDevices)[0]?
    ∧ getMatchingCbtUserAgent { userAgent with browser_version_type := .PREVIOUS }
        allCbtDevices = (rankedCbtUserAgents userAgent allCbtDevices)[1]?
    ∧ (matchingCbtUserAgents userAgent allCbtDevices = [] →
        getMatchingCbtUserAgent { userAgent with browser_version_type := .LATEST }
          allCbtDevices = none)
    ∧ ((matchingCbtUserAgents userAgent allCbtDevices).length < 2 →
        getMatchingCbtUserAgent { userAgent with browser_version_type := .PREVIOUS }
          allCbtDevices = none) := by
  have hperm : (rankedCbtUserAgents userAgent allCbtDevices).Perm
      (matchingCbtUserAgents userAgent allCbtDevices) :=
    (List.reverse_perm _).trans (sortByLe_perm _ _)
  have hsorted := sortByLe_pairwise candidateLe
    (matchingCbtUserAgents userAgent allCbtDevices) htotal htrans
  have hpw : (rankedCbtUserAgents userAgent allCbtDevices).Pairwise
      (fun a b => candidateLe b a = true) := List.pairwise_reverse.mpr hsorted
  have hlatest : getMatchingCbtUserAgent
      { userAgent with browser_version_type := .LATEST } allCbtDevices
      = (rankedCbtUserAgents userAgent allCbtDevices)[0]? := rfl
  have hprev : getMatchingCbtUserAgent
      { userAgent with browser_version_type := .PREVIOUS } allCbtDevices
      = (rankedCbtUserAgents userAgent allCbtDevices)[1]? := rfl
  refine ⟨hperm, hpw, hlatest, hprev, ?_, ?_⟩
  · intro h
    rw [hlatest]
    have hr : rankedCbtUserAgents userAgent allCbtDevices = [] := by
      unfold rankedCbtUserAgents
      rw [h]
      rfl
    rw [hr]
    rfl
  · intro h
    rw [hprev]
    refine List.getElem?_eq_none ?_
    have hlen := hperm.length_eq
    omega

theorem ranking_and_policy_selection_witness :
    (rankedCbtUserAgents rankDemoUserAgent rankDemoCatalog).Perm
        (matchingCbtUserAgents rankDemoUserAgent rankDemoCatalog)
    ∧ (rankedCbtUserAgents rankDemoUserAgent rankDemoCatalog).Pairwise
        (fun a b => candidateLe b a = true)
    ∧ getMatchingCbtUserAgent { rankDemoUserAgent with browser_version_type := .LATEST }
        rankDemoCatalog = (rankedCbtUserAgents rankDemoUserAgent rankDemoCatalog)[0]?
    ∧ getMatchingCbtUserAgent { rankDemoUserAgent with browser_version_type := .PREVIOUS }
        rankDemoCatalog = (rankedCbtUserAgents rankDemoUserAgent rankDemoCatalog)[1]?
    ∧ (matchingCbtUserAgents rankDemoUserAgent rankDemoCatalog = [] →
        getMatchingCbtUserAgent { rankDemoUserAgent with browser_version_type := .LATEST }
          rankDemoCatalog = none)
    ∧ ((matchingCbtUserAgents rankDemoUserAgent rankDemoCatalog).length < 2 →
        getMatchingCbtUserAgent { rankDemoUserAgent with browser_version_type := .PREVIOUS }
          rankDemoCatalog = none) :=
  ranking_and_policy_selection rankDemoUserAgent rankDemoCatalog (by decide) (by decide)

/-- C6: over any completion order of the comparable screenshot list, every
input screenshot lands in exactly one of `changed_screenshot_list` and
`unchanged_screenshot_list` (changed exactly when its diff result's
`has_changed` is true), with no duplicates and no omissions; and every verdict
in `changed_screenshot_browser_map` also appears in `changed_screenshot_list`. -/
theorem partition_and_grouping (diffOf : Screenshot → DiffImageResult)
    (reportData : ScreenshotsBundle) (completionOrder : List Screenshot)
    (hperm : completionOrder.Perm reportData.comparable_screenshot_list)
    (hch : reportData.changed_screenshot_list = [])
    (hun : reportData.unchanged_screenshot_list = []) :
    ((compareAllScreenshots diffOf completionOrder reportData).changed_screenshot_list
        ++ (compareAllScreenshots diffOf completionOrder reportData).unchanged_screenshot_list).Perm
      (reportData.comparable_screenshot_list.map (markDiffed diffOf))
    ∧ (compareAllScreenshots diffOf completionOrder reportData).changed_screenshot_list
        = ((completionOrder.filter fun s => (diffOf s).has_changed).map (markDiffed diffOf))
    ∧ (compareAllScreenshots diffOf completionOrder reportData).unchanged_screenshot_list
        = ((completionOrder.filter fun s => !(diffOf s).has_changed).map (markDiffed diffOf))
    ∧ ∀ (k : String) (s : Screenshot),
        s ∈ (compareAllScreenshots diffOf completionOrder reportData).changed_screenshot_browser_map k →
          s ∈ (compareAllScreenshots diffOf completionOrder reportData).changed_screenshot_list := by
  have hfold := foldl_compareOneScreenshot diffOf completionOrder reportData
  have hchanged : (compareAllScreenshots diffOf completionOrder reportData).changed_screenshot_list
      = ((completionOrder.filter fun s => (diffOf s).has_changed).map (markDiffed diffOf)) := by
    show (completionOrder.foldl (compareOneScreenshot diffOf) reportData).changed_screenshot_list = _
    rw [hfold.1, hch, List.nil_append]
  have hunchanged : (compareAllScreenshots diffOf completionOrder reportData).unchanged_screenshot_list
      = ((completionOrder.filter fun s => !(diffOf s).has_changed).map (markDiffed diffOf)) := by
    show (completionOrder.foldl (compareOneScreenshot diffOf) reportData).unchanged_screenshot_list = _
    rw [hfold.2, hun, List.nil_append]
  refine ⟨?_, hchanged, hunchanged, ?_⟩
  · rw [hchanged, hunchanged, ← List.map_append]
    exact ((List.filter_append_perm _ completionOrder).map _).trans (hperm.map _)
  · intro k s hs
    have hbm : (compareAllScreenshots diffOf completionOrder reportData).changed_screenshot_browser_map
        = groupByBrowser
            ((completionOrder.foldl (compareOneScreenshot diffOf) reportData).changed_screenshot_list) :=
      rfl
    rw [hbm] at hs
    exact mem_groupByBrowser _ k s hs

theorem partition_and_grouping_witness :
    ((compareAllScreenshots diffDemoOf [demoShotB, demoShotA] demoBundle).changed_screenshot_list
        ++ (compareAllScreenshots diffDemoOf [demoShotB, demoShotA] demoBundle).unchanged_screenshot_list).Perm
      (demoBundle.comparable_screenshot_list.map (markDiffed diffDemoOf))
    ∧ (compareAllScreenshots diffDemoOf [demoShotB, demoShotA] demoBundle).changed_screenshot_list
        = (([demoShotB, demoShotA].filter fun s => (diffDemoOf s).has_changed).map (markDiffed diffDemoOf))
    ∧ (compareAllScreenshots diffDemoOf [demoShotB, demoShotA] demoBundle).unchanged_screenshot_list
        = (([demoShotB, demoShotA].filter fun s => !(diffDemoOf s).has_changed).map (markDiffed diffDemoOf))
    ∧ ∀ (k : String) (s : Screenshot),
        s ∈ (compareAllScreenshots diffDemoOf [demoShotB, demoShotA] demoBundle).changed_screenshot_browser_map k →
          s ∈ (compareAllScreenshots diffDemoOf [demoShotB, demoShotA] demoBundle).changed_screenshot_list :=
  partition_and_grouping diffDemoOf demoBundle [demoShotB, demoShotA] (by decide) rfl rfl

end ImageDifferSpec
